import Mathlib

/-!
Verification of the pacdef backend core against its specification.

The development shallowly embeds the two source files
`crates/pacdef_core/src/backend/actual/rustup.rs` and
`crates/pacdef_core/src/core.rs`.  Rust strings are modelled as lists of
characters (`Str`); subprocess invocations are modelled by oracles passed
as explicit parameters (the command's exit status, or the lines of its
standard output); a Rust `panic!`/`expect` is modelled by a dedicated
`panicked` constructor of the result type, kept distinct from the
recoverable `Result::Err` case.
-/

/-- Rust strings, modelled as lists of characters. -/
abbrev Str := List Char

/-- Rust `str::split(sep)`: split at every occurrence of the separator
character.  Always returns at least one (possibly empty) segment, exactly
like the Rust iterator. -/
def splitChar (sep : Char) : Str → List Str
  | [] => [[]]
  | c :: cs =>
    if c = sep then [] :: splitChar sep cs
    else
      match splitChar sep cs with
      | [] => [[c]]
      | h :: t => (c :: h) :: t

/-- Rust `str::splitn(n, sep)`: like `splitChar` but yields at most `n`
segments, the last one being the unsplit remainder. -/
def splitnChar : Nat → Char → Str → List Str
  | 0, _, _ => []
  | 1, _, l => [l]
  | _ + 2, _, [] => [([] : Str)]
  | n + 2, sep, c :: cs =>
    if c = sep then [] :: splitnChar (n + 1) sep cs
    else
      match splitnChar (n + 2) sep cs with
      | [] => [[c]]
      | h :: t => (c :: h) :: t

/-- Rust `Vec<String>::join(sep)` restricted to a single separator character. -/
def intercalateChar (sep : Char) : List Str → Str
  | [] => []
  | [x] => x
  | x :: xs => x ++ sep :: intercalateChar sep xs

/-- A package: a required name plus an optional backend-specific
sub-namespace tag (`repo`).  Mirrors `Package` of the repository. -/
structure Package where
  name : Str
  repo : Option Str
deriving DecidableEq, Repr

/-- Modelled from the spec: the conversion `String → Package` used by the
adapters through `.into()` lives in a source file that is not part of the
provided sources.  Per the spec (sections 3 and 4.2) a package string of the
form `repo/name` is decomposed at the first `/`: the segment before it is
the `repo` sub-namespace tag and the remainder is the `name` (so the
component packages keep their inner `/`); a string without `/` is a plain
name with no `repo`. -/
def Package.fromStr (s : Str) : Package :=
  match splitChar '/' s with
  | [] => ⟨s, none⟩
  | [n] => ⟨n, none⟩
  | r :: rest => ⟨intercalateChar '/' rest, some r⟩

/-- The `"toolchain"` sub-namespace tag of the rustup backend. -/
def TOOLCHAIN : Str := "toolchain".toList

/-- The `"component"` sub-namespace tag of the rustup backend. -/
def COMPONENT : Str := "component".toList

/-- A subprocess invocation performed by `Rustup::install_packages`
(`rustup toolchain install <tc>` or
`rustup component add --toolchain <tc> <comp>`). -/
inductive Cmd
  | toolchainInstall (tc : Str)
  | componentAdd (tc comp : Str)
deriving DecidableEq, Repr

/-- Outcome of one `cmd.status()` call: a spawn error (`Err`) or an exit
status with the given code. -/
inductive CmdOut
  | err (msg : Str)
  | exit (code : Nat)
deriving DecidableEq, Repr

/-- Rust `result.as_ref().is_ok_and(|exit| exit.success())` from the source. -/
def CmdOut.okSuccess : CmdOut → Bool
  | .exit 0 => true
  | _ => false

/-- Overall outcome of `Rustup::install_packages` or
`Rustup::make_dependency`: either the function panicked (unrecoverable
abort), or it returned its `anyhow::Result<ExitStatus>` value. -/
inductive InstallRes
  | panicked (msg : Str)
  | result (r : CmdOut)
deriving DecidableEq, Repr

/-- Outcome of one of the two `for` loops of `Rustup::install_packages`:
a panic, an early `return result` after a failed command, or normal
completion carrying the current value of `result`. -/
inductive LoopOut
  | panicked (msg : Str)
  | earlyRet (r : CmdOut)
  | done (r : CmdOut)
deriving DecidableEq, Repr

/-- Panic message of the `expect` on a missing `repo` in the first loop of
`Rustup::install_packages`. -/
def MSG_REPO_1 : Str := "Not specified whether it is a toolchain or a component!".toList

/-- Panic message of the `expect` on a missing `repo` in the second loop
(the source misspells "wether"). -/
def MSG_REPO_2 : Str := "Not specified wether it is a component or a toolchain!".toList

/-- Panic message when a component package name has no `/`-segment at all. -/
def MSG_NO_TOOLCHAIN : Str := "Toolchain not specified!".toList

/-- Panic message when a component package name has no second `/`-segment. -/
def MSG_NO_COMPONENT : Str := "Component not specified!".toList

/-- First loop of `Rustup::install_packages`: walk the batch, run
`rustup toolchain install <name>` for every package tagged `toolchain`,
return early on the first command that is not a success.  `status` is the
oracle giving each spawned command's result, `cur` the current value of the
`result` variable. -/
def Rustup.toolchainLoop (status : Cmd → CmdOut) (cur : CmdOut) :
    List Package → List Cmd × LoopOut
  | [] => ([], .done cur)
  | p :: rest =>
    match p.repo with
    | none => ([], .panicked MSG_REPO_1)
    | some r =>
      if r = TOOLCHAIN then
        let res := status (.toolchainInstall p.name)
        if res.okSuccess then
          (.toolchainInstall p.name :: (Rustup.toolchainLoop status res rest).1,
           (Rustup.toolchainLoop status res rest).2)
        else ([.toolchainInstall p.name], .earlyRet res)
      else Rustup.toolchainLoop status cur rest

/-- Second loop of `Rustup::install_packages`: walk the batch again, and
for every package tagged `component` split its name on `/`, take the first
segment as the toolchain and the second as the component, and run
`rustup component add --toolchain <tc> <comp>`; return early on the first
command that is not a success. -/
def Rustup.componentLoop (status : Cmd → CmdOut) (cur : CmdOut) :
    List Package → List Cmd × LoopOut
  | [] => ([], .done cur)
  | p :: rest =>
    match p.repo with
    | none => ([], .panicked MSG_REPO_2)
    | some r =>
      if r = COMPONENT then
        match splitChar '/' p.name with
        | [] => ([], .panicked MSG_NO_TOOLCHAIN)
        | [_] => ([], .panicked MSG_NO_COMPONENT)
        | tc :: comp :: _ =>
          let res := status (.componentAdd tc comp)
          if res.okSuccess then
            (.componentAdd tc comp :: (Rustup.componentLoop status res rest).1,
             (Rustup.componentLoop status res rest).2)
          else ([.componentAdd tc comp], .earlyRet res)
      else Rustup.componentLoop status cur rest

/-- Method `Rustup::install_packages`: runs the toolchain loop then the component
loop, starting from `Ok(ExitStatus::from_raw(0))`.  Returns the trace of
commands attempted together with the function's outcome. -/
def Rustup.install_packages (status : Cmd → CmdOut) (packages : List Package) :
    List Cmd × InstallRes :=
  match Rustup.toolchainLoop status (.exit 0) packages with
  | (tr, .panicked m) => (tr, .panicked m)
  | (tr, .earlyRet r) => (tr, .result r)
  | (tr1, .done r1) =>
    match Rustup.componentLoop status r1 packages with
    | (tr2, .panicked m) => (tr1 ++ tr2, .panicked m)
    | (tr2, .earlyRet r) => (tr1 ++ tr2, .result r)
    | (tr2, .done r2) => (tr1 ++ tr2, .result r2)

/-- Method `Rustup::make_dependency`: unconditionally
`panic!("Not supported by {}", BINARY)` with `BINARY = "rustup"`. -/
def Rustup.make_dependency (_packages : List Package) : InstallRes :=
  .panicked "Not supported by rustup".toList

/-- Does an `InstallRes` represent a typed error value handed back to the
caller through the `anyhow::Result` return channel (as opposed to a panic
or an exit status)? -/
def InstallRes.isReturnedError : InstallRes → Bool
  | .result (.err _) => true
  | _ => false

/-- Outcome of a query method returning `anyhow::Result<_>`: a panic
(unrecoverable abort), a recoverable error value, or a normal result. -/
inductive QueryOut (α : Type)
  | panicked (msg : Str)
  | failed (msg : Str)
  | ok (a : α)
deriving DecidableEq, Repr

/-- Panic message of the (unreachable) `expect` on the first segment of a
component-list line. -/
def MSG_COMP_EMPTY : Str := "Component name is empty!".toList

/-- Panic message when a component-list line outside the allowlist has no
second `-`-segment. -/
def MSG_NO_SUCH : Str := "No such component is managed by rustup".toList

/-- The fixed set of known component names matched by the source's `match`
in `Rustup::run_component_command`. -/
def ALLOWLIST : List Str :=
  ["cargo".toList, "rustfmt".toList, "clippy".toList,
   "miri".toList, "rls".toList, "rustc".toList]

/-- Per-line parsing of `rustup component list --installed --toolchain <t>`
output in `Rustup::run_component_command`: `splitn(3, "-")`, allowlist
check on the first segment, else join the first two segments with `-`
(panicking when there is no second segment). -/
def Rustup.componentIdOfLine (line : Str) : QueryOut Str :=
  match splitnChar 3 '-' line with
  | [] => .panicked MSG_COMP_EMPTY
  | component :: rest =>
    if component ∈ ALLOWLIST then .ok component
    else
      match rest with
      | [] => .panicked MSG_NO_SUCH
      | second :: _ => .ok (component ++ '-' :: second)

/-- Inner loop of `Rustup::run_component_command` for one toolchain: parse
every line of the component-list output, pushing `<toolchain>/<component>`
for each. -/
def Rustup.componentEntries (toolchain : Str) : List Str → QueryOut (List Str)
  | [] => .ok []
  | l :: rest =>
    match Rustup.componentIdOfLine l with
    | .panicked m => .panicked m
    | .failed m => .failed m
    | .ok c =>
      match Rustup.componentEntries toolchain rest with
      | .ok v => .ok ((toolchain ++ '/' :: c) :: v)
      | e => e

/-- Method `Rustup::run_component_command`: iterate over the toolchains, listing
and parsing the installed components of each.  `componentLines` is the
oracle giving the stdout lines of
`rustup component list --installed --toolchain <t>`. -/
def Rustup.run_component_command (componentLines : Str → List Str) :
    List Str → QueryOut (List Str)
  | [] => .ok []
  | t :: ts =>
    match Rustup.componentEntries t (componentLines t) with
    | .panicked m => .panicked m
    | .failed m => .failed m
    | .ok v =>
      match Rustup.run_component_command componentLines ts with
      | .ok vs => .ok (v ++ vs)
      | e => e

/-- Method `Rustup::run_toolchain_command`: one toolchain name per stdout line of
`rustup toolchain list`, truncated to the text before the first `-`
by `splitn(2, "-")`. -/
def Rustup.run_toolchain_command (lines : List Str) : List Str :=
  lines.map (fun l => (splitnChar 2 '-' l).headD [])

/-- Method `Rustup::get_all_installed_packages`: toolchain packages from the
toolchain list, component packages from the per-toolchain component
lists, all converted through `Package::from` on `"toolchain/<t>"` and
`"component/<t>/<c>"` strings.  `toolchainLines` and `componentLines` are
the stdout oracles of the two subprocess invocations. -/
def Rustup.get_all_installed_packages (toolchainLines : List Str)
    (componentLines : Str → List Str) : QueryOut (List Package) :=
  let tv := Rustup.run_toolchain_command toolchainLines
  let toolchainPkgs := tv.map (fun n => Package.fromStr (TOOLCHAIN ++ '/' :: n))
  match Rustup.run_component_command componentLines tv with
  | .panicked m => .panicked m
  | .failed m => .failed m
  | .ok comps =>
    .ok (toolchainPkgs ++ comps.map (fun n => Package.fromStr (COMPONENT ++ '/' :: n)))

deriving instance DecidableEq for Except

/-- One backend as seen by the aggregator in `core.rs`: its section name
and the results its two diff queries produce once `load` has populated its
working set.  The trait object's internals live behind subprocess calls,
so the query outcomes are oracle fields. -/
structure BackendQ where
  sec : Str
  missing : Except Str (List Package)
  unmanaged : Except Str (List Package)
deriving DecidableEq, Repr

/-- One `show_error` invocation recorded by the aggregator: the skipped
backend's section together with the error it reported. -/
structure SkipWarning where
  sec : Str
  msg : Str
deriving DecidableEq, Repr

/-- Method `Pacdef::get_missing_packages`: iterate all backends; a backend whose
`get_missing_packages_sorted` succeeds is pushed onto the to-do list with
its diff, a backend whose query fails is reported through `show_error` and
skipped.  Returns the to-do list and the recorded warnings. -/
def Pacdef.get_missing_packages :
    List BackendQ → List (BackendQ × List Package) × List SkipWarning
  | [] => ([], [])
  | b :: rest =>
    let (todo, warns) := Pacdef.get_missing_packages rest
    match b.missing with
    | .ok diff => ((b, diff) :: todo, warns)
    | .error e => (todo, ⟨b.sec, e⟩ :: warns)

/-- Method `Pacdef::get_unmanaged_packages`: same structure over
`get_unmanaged_packages_sorted`. -/
def Pacdef.get_unmanaged_packages :
    List BackendQ → List (BackendQ × List Package) × List SkipWarning
  | [] => ([], [])
  | b :: rest =>
    let (todo, warns) := Pacdef.get_unmanaged_packages rest
    match b.unmanaged with
    | .ok diff => ((b, diff) :: todo, warns)
    | .error e => (todo, ⟨b.sec, e⟩ :: warns)

/-- Function `show_error` of `core.rs`: the lines printed to stderr for a skipped
backend, as a function of the `RUST_BACKTRACE` environment variable
(`env`), the backend's section, the top-level error message and the rest
of the error cause chain. -/
def show_error (env : Option Str) (sec top : Str) (causes : List Str) : List Str :=
  match env with
  | some s =>
    if s = "1".toList ∨ s = "full".toList then
      ("WARNING: skipping backend '".toList ++ sec ++ "':".toList)
        :: (top :: causes).map (fun e => "  ".toList ++ e)
    else []
  | none =>
    ["WARNING: skipping backend '".toList ++ sec ++ "': ".toList ++ top]

/-- Observable events of the sync/clean drivers in `core.rs`. -/
inductive Ev
  | printed (msg : Str)
  | shownDiff
  | prompted
  | installedMissing
  | removedUnmanaged
deriving DecidableEq, Repr

/-- Modelled from the spec:
`ToDoPerBackend::nothing_to_do_for_all_backends` is defined outside the
provided sources; per the spec (section 4.3) it is true iff every
collected diff is empty. -/
def nothing_to_do_for_all_backends (todo : List (BackendQ × List Package)) : Bool :=
  todo.all (fun e => e.2.isEmpty)

/-- Method `Pacdef::install_packages` (the `sync` driver): print "nothing to do"
and return `Ok` when every diff is empty; otherwise show the diff, prompt
for confirmation, and only on a `true` answer run the bulk install.
`showRes`, `confirm` and `installRes` are the outcomes of
`ToDoPerBackend::show`, `get_user_confirmation` and
`ToDoPerBackend::install_missing_packages` — collaborators outside the
provided sources, modelled from the spec as outcome parameters.  Returns
the event trace and the function's `Result`. -/
def Pacdef.install_packages (todo : List (BackendQ × List Package))
    (showRes : Except Str Unit) (confirm : Except Str Bool)
    (installRes : Except Str Unit) : List Ev × Except Str Unit :=
  if nothing_to_do_for_all_backends todo then
    ([.printed "nothing to do".toList], .ok ())
  else
    let ev0 := [.printed "Would install the following packages:\n".toList, .shownDiff]
    match showRes with
    | .error e => (ev0, .error e)
    | .ok _ =>
      let ev1 := ev0 ++ [.printed "".toList, .prompted]
      match confirm with
      | .error e => (ev1, .error e)
      | .ok false => (ev1, .ok ())
      | .ok true => (ev1 ++ [.installedMissing], installRes)

/-- Method `Pacdef::clean_packages` (the `clean` driver): identical gating with
`ToDoPerBackend::remove_unmanaged_packages` as the destructive step. -/
def Pacdef.clean_packages (todo : List (BackendQ × List Package))
    (showRes : Except Str Unit) (confirm : Except Str Bool)
    (removeRes : Except Str Unit) : List Ev × Except Str Unit :=
  if nothing_to_do_for_all_backends todo then
    ([.printed "nothing to do".toList], .ok ())
  else
    let ev0 := [.printed "Would remove the following packages:\n".toList, .shownDiff]
    match showRes with
    | .error e => (ev0, .error e)
    | .ok _ =>
      let ev1 := ev0 ++ [.printed "".toList, .prompted]
      match confirm with
      | .error e => (ev1, .error e)
      | .ok false => (ev1, .ok ())
      | .ok true => (ev1 ++ [.removedUnmanaged], removeRes)

/-- Spec-side definition (claim C1): the toolchain installs of a batch, in
the order given — one `rustup toolchain install <name>` per package tagged
`toolchain`. -/
def toolchainPlan (packages : List Package) : List Cmd :=
  packages.filterMap (fun p =>
    if p.repo = some TOOLCHAIN then some (.toolchainInstall p.name) else none)

/-- Spec-side definition (claim C1 as amended): the component installs of a
batch, in the order given — each package tagged `component` has its name
split on `/`, the first segment being the toolchain and the second segment
the component. -/
def componentPlan (packages : List Package) : List Cmd :=
  packages.filterMap (fun p =>
    if p.repo = some COMPONENT then
      match splitChar '/' p.name with
      | tc :: comp :: _ => some (.componentAdd tc comp)
      | _ => none
    else none)

/-- Spec-side definition (claim C1 exactly as stated): each component
package's name split on the **first** `/` into `(toolchain, component)`,
i.e. the component is the entire remainder after the first `/`. -/
def componentPlanAsClaimed (packages : List Package) : List Cmd :=
  packages.filterMap (fun p =>
    if p.repo = some COMPONENT then
      match splitChar '/' p.name with
      | tc :: c :: rest => some (.componentAdd tc (intercalateChar '/' (c :: rest)))
      | _ => none
    else none)

/-- Spec-side definition (claim C1): run a command list in order, stopping
at — and returning — the first result that is not a success exit status;
an empty or fully successful run returns the success status (raw 0). -/
def runFailFast (status : Cmd → CmdOut) : List Cmd → List Cmd × CmdOut
  | [] => ([], .exit 0)
  | c :: rest =>
    if (status c).okSuccess then
      (c :: (runFailFast status rest).1, (runFailFast status rest).2)
    else ([c], status c)

/-- Spec-side definition (claim C2): the component id of one output line,
determined allowlist-first over the plain `-`-delimited segments of the
line: the first segment alone when it is a known component name, otherwise
the first two segments joined by `-` (failing like the source when no
second segment exists). -/
def componentIdAsClaimed (line : Str) : QueryOut Str :=
  match splitChar '-' line with
  | [] => .panicked MSG_COMP_EMPTY
  | first :: rest =>
    if first ∈ ALLOWLIST then .ok first
    else
      match rest with
      | [] => .panicked MSG_NO_SUCH
      | second :: _ => .ok (first ++ '-' :: second)

/-- An oracle under which every spawned command reports success. -/
def allOkStatus : Cmd → CmdOut := fun _ => .exit 0

/-- Concrete install batch on which claim C1's reading of the component
split ("component = everything after the first `/`") disagrees with the
code (component = the second `/`-delimited segment). -/
def cexBatch : List Package :=
  [⟨"t".toList, some TOOLCHAIN⟩, ⟨"x/y/z".toList, some COMPONENT⟩]

/-- Concrete well-formed install batch with one toolchain and one
component package. -/
def wBatch : List Package :=
  [⟨"stable".toList, some TOOLCHAIN⟩, ⟨"stable/clippy".toList, some COMPONENT⟩]

/-- A concrete one-backend to-do list with a non-empty diff. -/
def todoW : List (BackendQ × List Package) :=
  [(⟨"rustup".toList, .ok [], .ok []⟩, [⟨"stable".toList, some TOOLCHAIN⟩])]

@[simp] lemma CmdOut.okSuccess_exit_zero : (CmdOut.exit 0).okSuccess = true := rfl

lemma CmdOut.okSuccess_iff (r : CmdOut) : r.okSuccess = true ↔ r = .exit 0 := by
  cases r with
  | err m => simp [CmdOut.okSuccess]
  | exit n => cases n <;> simp [CmdOut.okSuccess]

lemma runFailFast_append (status : Cmd → CmdOut) (A B : List Cmd) :
    runFailFast status (A ++ B) =
      if ((runFailFast status A).2).okSuccess then
        ((runFailFast status A).1 ++ (runFailFast status B).1,
         (runFailFast status B).2)
      else runFailFast status A := by
  induction A with
  | nil => simp [runFailFast, CmdOut.okSuccess]
  | cons c A' ih =>
    by_cases hok : (status c).okSuccess
    · by_cases h2 : ((runFailFast status A').2).okSuccess <;>
        simp [runFailFast, hok, ih, h2]
    · simp [runFailFast, hok]

lemma Rustup.toolchainLoop_eq (status : Cmd → CmdOut) (ps : List Package)
    (hrepo : ∀ p ∈ ps, p.repo ≠ none) :
    Rustup.toolchainLoop status (.exit 0) ps =
      ((runFailFast status (toolchainPlan ps)).1,
       if ((runFailFast status (toolchainPlan ps)).2).okSuccess then
         .done (.exit 0)
       else .earlyRet ((runFailFast status (toolchainPlan ps)).2)) := by
  induction ps with
  | nil => simp [Rustup.toolchainLoop, toolchainPlan, runFailFast, CmdOut.okSuccess]
  | cons p rest ih =>
    have hrepo' : ∀ q ∈ rest, q.repo ≠ none :=
      fun q hq => hrepo q (List.mem_cons_of_mem _ hq)
    obtain ⟨rr, hr⟩ : ∃ rr, p.repo = some rr := by
      cases hp : p.repo with
      | none => exact absurd hp (hrepo p (List.mem_cons_self _ _))
      | some rr => exact ⟨rr, rfl⟩
    by_cases htc : rr = TOOLCHAIN
    · subst htc
      by_cases hok : (status (Cmd.toolchainInstall p.name)).okSuccess
      · have h0 : status (Cmd.toolchainInstall p.name) = .exit 0 :=
          (CmdOut.okSuccess_iff _).mp hok
        simp [Rustup.toolchainLoop, toolchainPlan, runFailFast, hr, hok, h0,
          ih hrepo']
      · simp [Rustup.toolchainLoop, toolchainPlan, runFailFast, hr, hok]
    · simp [Rustup.toolchainLoop, toolchainPlan, runFailFast, hr, htc, ih hrepo']

lemma Rustup.componentLoop_eq (status : Cmd → CmdOut) (ps : List Package)
    (hrepo : ∀ p ∈ ps, p.repo ≠ none)
    (hcomp : ∀ p ∈ ps, p.repo = some COMPONENT →
      2 ≤ (splitChar '/' p.name).length) :
    Rustup.componentLoop status (.exit 0) ps =
      ((runFailFast status (componentPlan ps)).1,
       if ((runFailFast status (componentPlan ps)).2).okSuccess then
         .done (.exit 0)
       else .earlyRet ((runFailFast status (componentPlan ps)).2)) := by
  induction ps with
  | nil => simp [Rustup.componentLoop, componentPlan, runFailFast, CmdOut.okSuccess]
  | cons p rest ih =>
    have hrepo' : ∀ q ∈ rest, q.repo ≠ none :=
      fun q hq => hrepo q (List.mem_cons_of_mem _ hq)
    have hcomp' : ∀ q ∈ rest, q.repo = some COMPONENT →
        2 ≤ (splitChar '/' q.name).length :=
      fun q hq => hcomp q (List.mem_cons_of_mem _ hq)
    obtain ⟨rr, hr⟩ : ∃ rr, p.repo = some rr := by
      cases hp : p.repo with
      | none => exact absurd hp (hrepo p (List.mem_cons_self _ _))
      | some rr => exact ⟨rr, rfl⟩
    by_cases hcm : rr = COMPONENT
    · subst hcm
      obtain ⟨tc, comp, tl, hsplit⟩ :
          ∃ tc comp tl, splitChar '/' p.name = tc :: comp :: tl := by
        have hlen := hcomp p (List.mem_cons_self _ _) hr
        match hs : splitChar '/' p.name with
        | [] => rw [hs] at hlen; simp at hlen
        | [a] => rw [hs] at hlen; simp at hlen
        | a :: b :: t => exact ⟨a, b, t, rfl⟩
      by_cases hok : (status (Cmd.componentAdd tc comp)).okSuccess
      · have h0 : status (Cmd.componentAdd tc comp) = .exit 0 :=
          (CmdOut.okSuccess_iff _).mp hok
        simp [Rustup.componentLoop, componentPlan, runFailFast, hr, hsplit,
          hok, h0, ih hrepo' hcomp']
      · simp [Rustup.componentLoop, componentPlan, runFailFast, hr, hsplit, hok]
    · simp [Rustup.componentLoop, componentPlan, runFailFast, hr, hcm,
        ih hrepo' hcomp']

/-- C1 (counterexample): the claim's split rule fails on the code.  For the
batch `[toolchain "t", component "x/y/z"]` under an all-success oracle the
code installs component `"y"` (the second `/`-segment), not `"y/z"` (the
remainder after the first `/`) as the claim states, so the run differs from
the fail-fast execution of the plan built exactly as the claim words it. -/
theorem rustup_install_split_counterexample :
    (Rustup.install_packages allOkStatus cexBatch).1
        = [.toolchainInstall "t".toList, .componentAdd "x".toList "y".toList] ∧
      Rustup.install_packages allOkStatus cexBatch ≠
        ((runFailFast allOkStatus
            (toolchainPlan cexBatch ++ componentPlanAsClaimed cexBatch)).1,
         .result (runFailFast allOkStatus
            (toolchainPlan cexBatch ++ componentPlanAsClaimed cexBatch)).2) := by
  decide

/-- C1 (amended): for any batch containing both toolchain- and
component-tagged packages (every package carrying a repo tag, component
names having at least two `/`-segments), `Rustup::install_packages` is
exactly the fail-fast execution of the two-pass plan: every toolchain
install (in the order given) before any component install, each component
name contributing its first `/`-segment as the toolchain and its second
`/`-segment as the component; the first non-success result is returned
immediately and no further install is attempted. -/
theorem rustup_install_packages_two_pass (status : Cmd → CmdOut)
    (packages : List Package)
    (hrepo : ∀ p ∈ packages, p.repo ≠ none)
    (hcomp : ∀ p ∈ packages, p.repo = some COMPONENT →
      2 ≤ (splitChar '/' p.name).length)
    (_htc : ∃ p ∈ packages, p.repo = some TOOLCHAIN)
    (_hcm : ∃ p ∈ packages, p.repo = some COMPONENT) :
    Rustup.install_packages status packages =
      ((runFailFast status (toolchainPlan packages ++ componentPlan packages)).1,
       .result (runFailFast status
          (toolchainPlan packages ++ componentPlan packages)).2) := by
  unfold Rustup.install_packages
  rw [Rustup.toolchainLoop_eq status packages hrepo, runFailFast_append]
  by_cases h1 : ((runFailFast status (toolchainPlan packages)).2).okSuccess
  · simp only [h1, if_true]
    rw [Rustup.componentLoop_eq status packages hrepo hcomp]
    by_cases h2 : ((runFailFast status (componentPlan packages)).2).okSuccess
    · have e2 : (runFailFast status (componentPlan packages)).2 = .exit 0 :=
        (CmdOut.okSuccess_iff _).mp h2
      simp [h1, h2, e2]
    · simp [h1, h2]
  · simp [h1]

/-- C1 (witness): the amended theorem applied to the concrete batch
`[toolchain "stable", component "stable/clippy"]` under an all-success
oracle. -/
theorem rustup_install_packages_two_pass_witness :
    Rustup.install_packages allOkStatus wBatch =
      ((runFailFast allOkStatus (toolchainPlan wBatch ++ componentPlan wBatch)).1,
       .result (runFailFast allOkStatus
          (toolchainPlan wBatch ++ componentPlan wBatch)).2) :=
  rustup_install_packages_two_pass allOkStatus wBatch
    (by decide) (by decide) (by decide) (by decide)

/-- C10: a batch with no toolchain- and no component-tagged package, every
package nevertheless carrying some repo tag (the empty batch included),
makes `Rustup::install_packages` return the initial success status
`ExitStatus::from_raw(0)` without spawning any command. -/
theorem rustup_install_no_matching_repo (status : Cmd → CmdOut)
    (packages : List Package)
    (h1 : ∀ p ∈ packages, p.repo ≠ none)
    (h2 : ∀ p ∈ packages, p.repo ≠ some TOOLCHAIN ∧ p.repo ≠ some COMPONENT) :
    Rustup.install_packages status packages = ([], .result (.exit 0)) := by
  have hplan1 : toolchainPlan packages = [] := by
    refine List.filterMap_eq_nil_iff.mpr fun p hp => ?_
    simp [(h2 p hp).1]
  have hplan2 : componentPlan packages = [] := by
    refine List.filterMap_eq_nil_iff.mpr fun p hp => ?_
    simp [(h2 p hp).2]
  have hcomp : ∀ p ∈ packages, p.repo = some COMPONENT →
      2 ≤ (splitChar '/' p.name).length :=
    fun p hp hc => absurd hc (h2 p hp).2
  unfold Rustup.install_packages
  rw [Rustup.toolchainLoop_eq status packages h1, hplan1]
  simp only [runFailFast, CmdOut.okSuccess_exit_zero, if_true]
  rw [Rustup.componentLoop_eq status packages h1 hcomp, hplan2]
  simp [runFailFast]

/-- C10 (witness): a one-package batch whose repo tag is neither
`toolchain` nor `component`, under an oracle that fails every command:
the result is still the success status with an empty trace, so the binary
was never invoked. -/
theorem rustup_install_no_matching_repo_witness :
    Rustup.install_packages (fun _ => CmdOut.exit 1)
        [⟨"x".toList, some "other".toList⟩] = ([], .result (.exit 0)) :=
  rustup_install_no_matching_repo _ _ (by decide) (by decide)

lemma Rustup.toolchainLoop_none_not_done (status : Cmd → CmdOut)
    {ps : List Package} {p : Package} (hp : p ∈ ps) (hnone : p.repo = none)
    (cur : CmdOut) :
    (∃ m, (Rustup.toolchainLoop status cur ps).2 = .panicked m) ∨
    (∃ r, (Rustup.toolchainLoop status cur ps).2 = .earlyRet r ∧
      r.okSuccess = false) := by
  induction ps generalizing cur with
  | nil => cases hp
  | cons q rest ih =>
    rcases List.mem_cons.mp hp with h | h
    · subst h
      simp [Rustup.toolchainLoop, hnone]
    · cases hq : q.repo with
      | none => simp [Rustup.toolchainLoop, hq]
      | some rr =>
        by_cases htc : rr = TOOLCHAIN
        · subst htc
          by_cases hok : (status (Cmd.toolchainInstall q.name)).okSuccess
          · simpa [Rustup.toolchainLoop, hq, hok] using
              ih h (status (Cmd.toolchainInstall q.name))
          · refine Or.inr ⟨status (Cmd.toolchainInstall q.name), ?_⟩
            simp [Rustup.toolchainLoop, hq, hok]
        · simpa [Rustup.toolchainLoop, hq, htc] using ih h cur

lemma Rustup.toolchainLoop_none_allok (status : Cmd → CmdOut)
    (hstat : ∀ c, status c = .exit 0) {ps : List Package} {p : Package}
    (hp : p ∈ ps) (hnone : p.repo = none) (cur : CmdOut) :
    (Rustup.toolchainLoop status cur ps).2 = .panicked MSG_REPO_1 := by
  induction ps generalizing cur with
  | nil => cases hp
  | cons q rest ih =>
    cases hq : q.repo with
    | none => simp [Rustup.toolchainLoop, hq]
    | some rr =>
      have h : p ∈ rest := by
        rcases List.mem_cons.mp hp with he | h
        · subst he; rw [hq] at hnone; cases hnone
        · exact h
      by_cases htc : rr = TOOLCHAIN
      · subst htc
        have h0 : status (Cmd.toolchainInstall q.name) = .exit 0 := hstat _
        simpa [Rustup.toolchainLoop, hq, h0] using
          ih h (status (Cmd.toolchainInstall q.name))
      · simpa [Rustup.toolchainLoop, hq, htc] using ih h cur

/-- C8: a batch containing any package with an absent repo tag never makes
`Rustup::install_packages` return success — and whenever no earlier
command failure cuts the first loop short (here: under an all-success
oracle) the call aborts with the missing-repo panic message, before any
default interpretation of the package could be applied. -/
theorem rustup_install_missing_repo (status : Cmd → CmdOut)
    (packages : List Package) (p : Package)
    (hp : p ∈ packages) (hnone : p.repo = none) :
    (Rustup.install_packages status packages).2 ≠ .result (.exit 0) ∧
    ((∀ c, status c = .exit 0) →
      (Rustup.install_packages status packages).2 = .panicked MSG_REPO_1) := by
  constructor
  · rcases hx : Rustup.toolchainLoop status (.exit 0) packages with ⟨tr, out⟩
    rcases Rustup.toolchainLoop_none_not_done status hp hnone (.exit 0) with
      ⟨m, hm⟩ | ⟨r, hr, hrf⟩
    · rw [hx] at hm
      simp only at hm
      subst hm
      simp [Rustup.install_packages, hx]
    · rw [hx] at hr
      simp only at hr
      subst hr
      have : r ≠ .exit 0 := by
        intro he
        rw [he] at hrf
        simp at hrf
      simp [Rustup.install_packages, hx, this]
  · intro hstat
    have htl := Rustup.toolchainLoop_none_allok status hstat hp hnone (.exit 0)
    rcases hx : Rustup.toolchainLoop status (.exit 0) packages with ⟨tr, out⟩
    rw [hx] at htl
    simp only at htl
    subst htl
    simp [Rustup.install_packages, hx]

/-- C8 (witness): the theorem applied to the one-package batch whose repo
is absent, under the all-success oracle. -/
theorem rustup_install_missing_repo_witness :
    (Rustup.install_packages allOkStatus [⟨"a".toList, none⟩]).2 ≠
        .result (.exit 0) ∧
      (Rustup.install_packages allOkStatus [⟨"a".toList, none⟩]).2 =
        .panicked MSG_REPO_1 := by
  have h := rustup_install_missing_repo allOkStatus [⟨"a".toList, none⟩]
    ⟨"a".toList, none⟩ (by decide) rfl
  exact ⟨h.1, h.2 (fun _ => rfl)⟩

/-- C4 (counterexample): at the concrete input `[toolchain "stable"]` the
`make_dependency` failure is an unrecoverable panic, not a typed error
value returned through the `Result` channel, refuting the claim's "typed
capability error returned to the caller rather than an unrecoverable
abort". -/
theorem make_dependency_counterexample :
    Rustup.make_dependency [⟨"stable".toList, some TOOLCHAIN⟩] =
        .panicked "Not supported by rustup".toList ∧
      InstallRes.isReturnedError
        (Rustup.make_dependency [⟨"stable".toList, some TOOLCHAIN⟩]) = false := by
  decide

/-- C4 (amended): `Rustup::make_dependency` (whose backend has
`SUPPORTS_AS_DEPENDENCY = false`) always fails for every input — it never
returns at all, let alone silently succeeds — but the failure is an
unrecoverable abort (a panic with a message), not a typed capability error
returned to the caller. -/
theorem make_dependency_always_panics (ps : List Package) :
    Rustup.make_dependency ps = .panicked "Not supported by rustup".toList ∧
      (∀ r, Rustup.make_dependency ps ≠ .result r) ∧
      InstallRes.isReturnedError (Rustup.make_dependency ps) = false := by
  refine ⟨rfl, fun r h => ?_, rfl⟩
  simp [Rustup.make_dependency] at h

/-- C4 (witness): the amended theorem applied to the empty batch. -/
theorem make_dependency_always_panics_witness :
    Rustup.make_dependency [] = .panicked "Not supported by rustup".toList :=
  (make_dependency_always_panics []).1

lemma splitChar_ne_nil (sep : Char) (l : Str) : splitChar sep l ≠ [] := by
  cases l with
  | nil => simp [splitChar]
  | cons c cs =>
    by_cases hc : c = sep
    · simp [splitChar, hc]
    · simp only [splitChar, hc, if_false]
      cases splitChar sep cs <;> simp

lemma splitChar_eq (sep : Char) (l : Str) :
    splitChar sep l =
      match l.dropWhile (fun c => c ≠ sep) with
      | [] => [l.takeWhile (fun c => c ≠ sep)]
      | _ :: tl => l.takeWhile (fun c => c ≠ sep) :: splitChar sep tl := by
  induction l with
  | nil => simp [splitChar]
  | cons c cs ih =>
    by_cases hc : c = sep
    · subst hc
      simp [splitChar, List.takeWhile_cons, List.dropWhile_cons]
    · simp only [splitChar, hc, if_false, List.takeWhile_cons, List.dropWhile_cons,
        ne_eq, decide_not]
      rw [ih]
      simp only [ne_eq, decide_not]
      cases hd : cs.dropWhile (fun c => !decide (c = sep)) <;> simp [hc, hd]

lemma splitnChar_eq (n : Nat) (sep : Char) (l : Str) :
    splitnChar (n + 2) sep l =
      match l.dropWhile (fun c => c ≠ sep) with
      | [] => [l.takeWhile (fun c => c ≠ sep)]
      | _ :: tl => l.takeWhile (fun c => c ≠ sep) :: splitnChar (n + 1) sep tl := by
  induction l with
  | nil => simp [splitnChar]
  | cons c cs ih =>
    by_cases hc : c = sep
    · subst hc
      simp [splitnChar, List.takeWhile_cons, List.dropWhile_cons]
    · simp only [splitnChar, hc, if_false, List.takeWhile_cons, List.dropWhile_cons,
        ne_eq, decide_not]
      rw [ih]
      simp only [ne_eq, decide_not]
      cases hd : cs.dropWhile (fun c => !decide (c = sep)) <;> simp [hc, hd]

lemma splitnChar_one (sep : Char) (l : Str) : splitnChar 1 sep l = [l] := by
  simp [splitnChar]

lemma splitnChar_two_head (sep : Char) (l : Str) :
    (splitnChar 2 sep l).headD [] = l.takeWhile (fun c => c ≠ sep) := by
  rw [show (2 : Nat) = 0 + 2 from rfl, splitnChar_eq]
  cases l.dropWhile (fun c => c ≠ sep) <;> simp

lemma splitnChar_no_sep (n : Nat) (sep : Char) (l : Str) (h : sep ∉ l) :
    splitnChar (n + 2) sep l = [l] := by
  rw [splitnChar_eq]
  have hd : l.dropWhile (fun c => c ≠ sep) = [] :=
    List.dropWhile_eq_nil_iff.mpr fun x hx => by
      simp only [ne_eq, decide_eq_true_eq]
      exact fun he => h (he ▸ hx)
  have ht : l.takeWhile (fun c => c ≠ sep) = l :=
    List.takeWhile_eq_self_iff.mpr fun x hx => by
      simp only [ne_eq, decide_eq_true_eq]
      exact fun he => h (he ▸ hx)
  rw [hd, ht]

lemma splitChar_append_cons (sep : Char) (a b : Str) (ha : sep ∉ a) :
    splitChar sep (a ++ sep :: b) = a :: splitChar sep b := by
  induction a with
  | nil => simp [splitChar]
  | cons c cs ih =>
    have hc : c ≠ sep := fun he => ha (he ▸ List.mem_cons_self _ _)
    have ha' : sep ∉ cs := fun h => ha (List.mem_cons_of_mem _ h)
    show splitChar sep (c :: (cs ++ sep :: b)) = (c :: cs) :: splitChar sep b
    rw [show splitChar sep (c :: (cs ++ sep :: b)) =
          (match splitChar sep (cs ++ sep :: b) with
           | [] => [[c]]
           | h :: t => (c :: h) :: t) from by simp [splitChar, hc]]
    rw [ih ha']

lemma intercalateChar_splitChar (sep : Char) (l : Str) :
    intercalateChar sep (splitChar sep l) = l := by
  induction l with
  | nil => rfl
  | cons c cs ih =>
    by_cases hc : c = sep
    · rw [hc, show splitChar sep (sep :: cs) = [] :: splitChar sep cs from by
        simp [splitChar]]
      cases hs : splitChar sep cs with
      | nil => exact absurd hs (splitChar_ne_nil sep cs)
      | cons h t =>
        rw [hs] at ih
        simp [intercalateChar, ih]
    · rw [show splitChar sep (c :: cs) =
            (match splitChar sep cs with
             | [] => [[c]]
             | h :: t => (c :: h) :: t) from by simp [splitChar, hc]]
      cases hs : splitChar sep cs with
      | nil => exact absurd hs (splitChar_ne_nil sep cs)
      | cons h t =>
        rw [hs] at ih
        cases t with
        | nil => simpa [intercalateChar] using congrArg (fun x => c :: x) ih
        | cons t1 ts => simpa [intercalateChar] using congrArg (fun x => c :: x) ih

lemma Rustup.componentIdOfLine_eq_claimed (line : Str) :
    Rustup.componentIdOfLine line = componentIdAsClaimed line := by
  unfold Rustup.componentIdOfLine componentIdAsClaimed
  rw [show (3 : Nat) = 1 + 2 from rfl, splitnChar_eq, splitChar_eq]
  cases hd : line.dropWhile (fun c => c ≠ '-') with
  | nil => rfl
  | cons x tl =>
    simp only [ne_eq, decide_not]
    by_cases hal : (line.takeWhile (fun c => !decide (c = '-'))) ∈ ALLOWLIST
    · simp [hal]
    · simp only [hal, if_false]
      rw [show (1 + 1 : Nat) = 0 + 2 from rfl, splitnChar_eq, splitChar_eq]
      simp only [ne_eq, decide_not]
      cases hd2 : tl.dropWhile (fun c => !decide (c = '-')) <;> simp [hd2]

lemma Package.fromStr_tag (tag n : Str) (htag : '/' ∉ tag) :
    Package.fromStr (tag ++ '/' :: n) = ⟨n, some tag⟩ := by
  unfold Package.fromStr
  rw [splitChar_append_cons '/' tag n htag]
  have hround := intercalateChar_splitChar '/' n
  cases hs : splitChar '/' n with
  | nil => exact absurd hs (splitChar_ne_nil _ _)
  | cons h t =>
    rw [hs] at hround
    cases t <;> simp_all

/-- C2: for every component-list output line the component id is determined
allowlist-first — the first `-`-delimited segment alone when it is one of
cargo, rustfmt, clippy, miri, rls, rustc, otherwise the first two
`-`-delimited segments joined by `-` — and the per-line emitted entry is
`<toolchain>/<component>`, converted to a `Package` with
`repo = "component"` and `name = "<toolchain>/<component>"`. -/
theorem rustup_component_allowlist_first (line t c : Str) :
    Rustup.componentIdOfLine line = componentIdAsClaimed line ∧
      Rustup.componentEntries t [line] =
        (match componentIdAsClaimed line with
         | .panicked m => .panicked m
         | .failed m => .failed m
         | .ok c0 => .ok [t ++ '/' :: c0]) ∧
      Package.fromStr (COMPONENT ++ '/' :: (t ++ '/' :: c)) =
        ⟨t ++ '/' :: c, some COMPONENT⟩ := by
  refine ⟨Rustup.componentIdOfLine_eq_claimed line, ?_, ?_⟩
  · unfold Rustup.componentEntries
    rw [Rustup.componentIdOfLine_eq_claimed line]
    cases componentIdAsClaimed line <;> simp [Rustup.componentEntries]
  · exact Package.fromStr_tag COMPONENT _ (by decide)

/-- C6: every line of the toolchain-list output yields exactly one
toolchain name — the line's text before the first `-` (via
`splitn(2, "-")`, first segment) — hence one `Package` with
`repo = "toolchain"` per line; a line containing `-` is never used whole
as the toolchain identifier. -/
theorem rustup_toolchain_truncation (lines : List Str) :
    Rustup.run_toolchain_command lines =
        lines.map (fun l => l.takeWhile (fun ch => ch ≠ '-')) ∧
      (Rustup.run_toolchain_command lines).map
          (fun n => Package.fromStr (TOOLCHAIN ++ '/' :: n)) =
        lines.map (fun l => ⟨l.takeWhile (fun ch => ch ≠ '-'), some TOOLCHAIN⟩) ∧
      ∀ l ∈ lines, '-' ∈ l → l.takeWhile (fun ch => ch ≠ '-') ≠ l := by
  have h1 : Rustup.run_toolchain_command lines =
      lines.map (fun l => l.takeWhile (fun ch => ch ≠ '-')) := by
    unfold Rustup.run_toolchain_command
    exact List.map_congr_left fun l _ => splitnChar_two_head '-' l
  refine ⟨h1, ?_, ?_⟩
  · rw [h1, List.map_map]
    refine List.map_congr_left fun l _ => ?_
    exact Package.fromStr_tag TOOLCHAIN _ (by decide)
  · intro l _ hdash heq
    have := List.mem_takeWhile_imp (heq ▸ hdash)
    simp at this

/-- C6 (witness): at the concrete line `"stable-x86_64"` the truncated
toolchain id differs from the raw line. -/
theorem rustup_toolchain_truncation_witness :
    "stable-x86_64".toList.takeWhile (fun ch => ch ≠ '-') ≠
      "stable-x86_64".toList :=
  (rustup_toolchain_truncation ["stable-x86_64".toList]).2.2
    "stable-x86_64".toList (by decide) (by decide)

lemma Rustup.componentIdOfLine_panicked_msg (l : Str) {m : Str}
    (h : Rustup.componentIdOfLine l = .panicked m) : m = MSG_NO_SUCH := by
  unfold Rustup.componentIdOfLine at h
  cases hs : splitnChar 3 '-' l with
  | nil =>
    have : splitnChar 3 '-' l ≠ [] := by
      rw [show (3 : Nat) = 1 + 2 from rfl, splitnChar_eq]
      cases l.dropWhile (fun c => c ≠ '-') <;> simp
    exact absurd hs this
  | cons a rest =>
    rw [hs] at h
    by_cases ha : a ∈ ALLOWLIST
    · simp [ha] at h
    · cases rest with
      | nil => simpa [ha] using h.symm
      | cons b t => simp [ha] at h

lemma Rustup.componentIdOfLine_not_failed (l : Str) (m : Str) :
    Rustup.componentIdOfLine l ≠ .failed m := by
  unfold Rustup.componentIdOfLine
  cases hs : splitnChar 3 '-' l with
  | nil => simp
  | cons a rest =>
    by_cases ha : a ∈ ALLOWLIST
    · simp [ha]
    · cases rest <;> simp [ha]

lemma Rustup.componentEntries_panicked_msg (t : Str) (lines : List Str) :
    ∀ m : Str, Rustup.componentEntries t lines = .panicked m → m = MSG_NO_SUCH := by
  induction lines with
  | nil => intro m h; simp [Rustup.componentEntries] at h
  | cons x rest ih =>
    intro m h
    unfold Rustup.componentEntries at h
    cases hx : Rustup.componentIdOfLine x with
    | panicked m1 =>
      rw [hx] at h
      simp only [QueryOut.panicked.injEq] at h
      exact h ▸ Rustup.componentIdOfLine_panicked_msg x hx
    | failed m1 => exact absurd hx (Rustup.componentIdOfLine_not_failed x m1)
    | ok c =>
      rw [hx] at h
      cases hrest : Rustup.componentEntries t rest with
      | panicked m2 =>
        rw [hrest] at h
        simp only [QueryOut.panicked.injEq] at h
        exact h ▸ ih m2 hrest
      | failed m2 => rw [hrest] at h; simp at h
      | ok v => rw [hrest] at h; simp at h

lemma Rustup.componentEntries_not_failed (t : Str) (lines : List Str) :
    ∀ m : Str, Rustup.componentEntries t lines ≠ .failed m := by
  induction lines with
  | nil => intro m; simp [Rustup.componentEntries]
  | cons x rest ih =>
    intro m h
    unfold Rustup.componentEntries at h
    cases hx : Rustup.componentIdOfLine x with
    | panicked m1 => rw [hx] at h; simp at h
    | failed m1 => exact Rustup.componentIdOfLine_not_failed x m1 hx
    | ok c =>
      rw [hx] at h
      cases hrest : Rustup.componentEntries t rest with
      | panicked m2 => rw [hrest] at h; simp at h
      | failed m2 => exact ih m2 hrest
      | ok v => rw [hrest] at h; simp at h

lemma Rustup.componentEntries_panicked (t : Str) (lines : List Str) (l : Str)
    (hl : l ∈ lines) (hpan : Rustup.componentIdOfLine l = .panicked MSG_NO_SUCH) :
    Rustup.componentEntries t lines = .panicked MSG_NO_SUCH := by
  induction lines with
  | nil => cases hl
  | cons x rest ih =>
    rcases List.mem_cons.mp hl with he | h
    · subst he
      simp [Rustup.componentEntries, hpan]
    · cases hx : Rustup.componentIdOfLine x with
      | panicked m =>
        have := Rustup.componentIdOfLine_panicked_msg x hx
        subst this
        simp [Rustup.componentEntries, hx]
      | failed m => exact absurd hx (Rustup.componentIdOfLine_not_failed x m)
      | ok c => simp [Rustup.componentEntries, hx, ih h]

lemma Rustup.run_component_command_panicked (cl : Str → List Str)
    (ts : List Str) (t : Str) (ht : t ∈ ts)
    (hpan : Rustup.componentEntries t (cl t) = .panicked MSG_NO_SUCH) :
    Rustup.run_component_command cl ts = .panicked MSG_NO_SUCH := by
  induction ts with
  | nil => cases ht
  | cons x rest ih =>
    rcases List.mem_cons.mp ht with he | h
    · subst he
      simp [Rustup.run_component_command, hpan]
    · cases hx : Rustup.componentEntries x (cl x) with
      | panicked m =>
        have := Rustup.componentEntries_panicked_msg x (cl x) m hx
        subst this
        simp [Rustup.run_component_command, hx]
      | failed m => exact absurd hx (Rustup.componentEntries_not_failed x (cl x) m)
      | ok v => simp [Rustup.run_component_command, hx, ih h]

/-- C9: a component-list line whose first `-`-delimited segment is outside
the allowlist and which has no second `-`-delimited segment (no `-` at
all) makes `Rustup::get_all_installed_packages` panic — an unrecoverable
abort, not a recoverable `Err` nor a returned set. -/
theorem rustup_unknown_component_panics (toolchainLines : List Str)
    (componentLines : Str → List Str) (t line : Str)
    (ht : t ∈ Rustup.run_toolchain_command toolchainLines)
    (hline : line ∈ componentLines t)
    (hal : (splitnChar 3 '-' line).headD [] ∉ ALLOWLIST)
    (hdash : '-' ∉ line) :
    Rustup.get_all_installed_packages toolchainLines componentLines =
      .panicked MSG_NO_SUCH := by
  have hsp : splitnChar 3 '-' line = [line] := splitnChar_no_sep 1 '-' line hdash
  have hpan : Rustup.componentIdOfLine line = .panicked MSG_NO_SUCH := by
    unfold Rustup.componentIdOfLine
    rw [hsp]
    rw [hsp] at hal
    simpa using hal
  have h1 := Rustup.componentEntries_panicked t (componentLines t) line hline hpan
  have h2 := Rustup.run_component_command_panicked componentLines _ t ht h1
  simp [Rustup.get_all_installed_packages, h2]

/-- C9 (witness): one installed toolchain line `"stable-x"`, whose
component list contains the single line `"docs"` (not in the allowlist, no
`-`): the whole query panics. -/
theorem rustup_unknown_component_panics_witness :
    Rustup.get_all_installed_packages ["stable-x".toList]
        (fun _ => ["docs".toList]) = .panicked MSG_NO_SUCH :=
  rustup_unknown_component_panics ["stable-x".toList] (fun _ => ["docs".toList])
    "stable".toList "docs".toList (by decide) (by decide) (by decide) (by decide)

/-- C3: a failed diff query skips only that backend.  Over every backend
list, the to-do list is exactly the successful backends in order, each
paired with its diff (an empty diff included), the failed backends each
contribute one skip warning and no to-do entry, and both aggregator
functions always return (the loop matches, never propagates, each error);
the same holds for the missing-packages and the unmanaged-packages
query. -/
theorem aggregator_backend_isolation (bs : List BackendQ) :
    (Pacdef.get_missing_packages bs).1 =
        bs.filterMap (fun b =>
          match b.missing with
          | .ok d => some (b, d)
          | .error _ => none) ∧
      (Pacdef.get_missing_packages bs).2 =
        bs.filterMap (fun b =>
          match b.missing with
          | .error e => some ⟨b.sec, e⟩
          | .ok _ => none) ∧
      (Pacdef.get_unmanaged_packages bs).1 =
        bs.filterMap (fun b =>
          match b.unmanaged with
          | .ok d => some (b, d)
          | .error _ => none) ∧
      (Pacdef.get_unmanaged_packages bs).2 =
        bs.filterMap (fun b =>
          match b.unmanaged with
          | .error e => some ⟨b.sec, e⟩
          | .ok _ => none) := by
  induction bs with
  | nil => simp [Pacdef.get_missing_packages, Pacdef.get_unmanaged_packages]
  | cons b rest ih =>
    obtain ⟨h1, h2, h3, h4⟩ := ih
    cases hm : b.missing <;> cases hu : b.unmanaged <;>
      simp [Pacdef.get_missing_packages, Pacdef.get_unmanaged_packages,
        hm, hu, h1, h2, h3, h4]

/-- C5 (code behavior at the failing input): with `RUST_BACKTRACE` set to
`"0"` — an environment state the claim covers — `show_error` prints
nothing at all, leaving the skipped backend entirely unreported; unset it
prints the one-liner and `"1"` prints the chain, as claimed. -/
theorem show_error_silent_on_backtrace_zero :
    show_error (some "0".toList) "rustup".toList "spawn failure".toList [] = [] ∧
      show_error none "rustup".toList "spawn failure".toList [] =
        ["WARNING: skipping backend 'rustup': spawn failure".toList] ∧
      show_error (some "1".toList) "rustup".toList "spawn failure".toList [] ≠ [] := by
  decide

/-- C7: in both the sync driver (`Pacdef::install_packages`) and the clean
driver (`Pacdef::clean_packages`), a destructive step only ever runs after
the diff was shown and the prompt answered `true` (the destructive event is
last, preceded by the shown diff and the prompt); when the show step
succeeded and the confirmation returned `false` the driver returns `Ok`
with no destructive step; and when every collected diff is empty the
driver prints "nothing to do" and returns `Ok` without showing, prompting
or acting. -/
theorem sync_clean_gating (todo : List (BackendQ × List Package))
    (showRes : Except Str Unit) (confirm : Except Str Bool)
    (installRes removeRes : Except Str Unit) :
    (Ev.installedMissing ∈ (Pacdef.install_packages todo showRes confirm installRes).1 →
      confirm = .ok true ∧
      ∃ pre, (Pacdef.install_packages todo showRes confirm installRes).1 =
          pre ++ [Ev.installedMissing] ∧ Ev.shownDiff ∈ pre ∧ Ev.prompted ∈ pre) ∧
    (showRes = .ok () → confirm = .ok false →
      (Pacdef.install_packages todo showRes confirm installRes).2 = .ok () ∧
      Ev.installedMissing ∉ (Pacdef.install_packages todo showRes confirm installRes).1) ∧
    (nothing_to_do_for_all_backends todo = true →
      Pacdef.install_packages todo showRes confirm installRes =
          ([.printed "nothing to do".toList], .ok ()) ∧
      Ev.shownDiff ∉ (Pacdef.install_packages todo showRes confirm installRes).1 ∧
      Ev.prompted ∉ (Pacdef.install_packages todo showRes confirm installRes).1 ∧
      Ev.installedMissing ∉ (Pacdef.install_packages todo showRes confirm installRes).1) ∧
    (Ev.removedUnmanaged ∈ (Pacdef.clean_packages todo showRes confirm removeRes).1 →
      confirm = .ok true ∧
      ∃ pre, (Pacdef.clean_packages todo showRes confirm removeRes).1 =
          pre ++ [Ev.removedUnmanaged] ∧ Ev.shownDiff ∈ pre ∧ Ev.prompted ∈ pre) ∧
    (showRes = .ok () → confirm = .ok false →
      (Pacdef.clean_packages todo showRes confirm removeRes).2 = .ok () ∧
      Ev.removedUnmanaged ∉ (Pacdef.clean_packages todo showRes confirm removeRes).1) ∧
    (nothing_to_do_for_all_backends todo = true →
      Pacdef.clean_packages todo showRes confirm removeRes =
          ([.printed "nothing to do".toList], .ok ()) ∧
      Ev.shownDiff ∉ (Pacdef.clean_packages todo showRes confirm removeRes).1 ∧
      Ev.prompted ∉ (Pacdef.clean_packages todo showRes confirm removeRes).1 ∧
      Ev.removedUnmanaged ∉ (Pacdef.clean_packages todo showRes confirm removeRes).1) := by
  refine ⟨?_, ?_, ?_, ?_, ?_, ?_⟩
  · intro hmem
    by_cases hn : nothing_to_do_for_all_backends todo
    · simp [Pacdef.install_packages, hn] at hmem
    · cases showRes with
      | error e => simp [Pacdef.install_packages, hn] at hmem
      | ok u =>
        cases confirm with
        | error e => simp [Pacdef.install_packages, hn] at hmem
        | ok bb =>
          cases bb with
          | false => simp [Pacdef.install_packages, hn] at hmem
          | true =>
            refine ⟨rfl,
              ⟨[.printed "Would install the following packages:\n".toList,
                .shownDiff, .printed "".toList, .prompted], ?_, by simp, by simp⟩⟩
            simp [Pacdef.install_packages, hn]
  · intro hs hc
    subst hs; subst hc
    by_cases hn : nothing_to_do_for_all_backends todo <;>
      simp [Pacdef.install_packages, hn]
  · intro hn
    simp [Pacdef.install_packages, hn]
  · intro hmem
    by_cases hn : nothing_to_do_for_all_backends todo
    · simp [Pacdef.clean_packages, hn] at hmem
    · cases showRes with
      | error e => simp [Pacdef.clean_packages, hn] at hmem
      | ok u =>
        cases confirm with
        | error e => simp [Pacdef.clean_packages, hn] at hmem
        | ok bb =>
          cases bb with
          | false => simp [Pacdef.clean_packages, hn] at hmem
          | true =>
            refine ⟨rfl,
              ⟨[.printed "Would remove the following packages:\n".toList,
                .shownDiff, .printed "".toList, .prompted], ?_, by simp, by simp⟩⟩
            simp [Pacdef.clean_packages, hn]
  · intro hs hc
    subst hs; subst hc
    by_cases hn : nothing_to_do_for_all_backends todo <;>
      simp [Pacdef.clean_packages, hn]
  · intro hn
    simp [Pacdef.clean_packages, hn]

/-- C7 (witness): for a concrete to-do list with a non-empty diff, a
successful show step and a declined confirmation, the sync driver returns
`Ok` with no install performed. -/
theorem sync_clean_gating_witness :
    (Pacdef.install_packages todoW (.ok ()) (.ok false) (.ok ())).2 = .ok () ∧
      Ev.installedMissing ∉ (Pacdef.install_packages todoW (.ok ()) (.ok false) (.ok ())).1 :=
  (sync_clean_gating todoW (.ok ()) (.ok false) (.ok ()) (.ok ())).2.1 rfl rfl




